import Mathlib

/-!
Verification of the tool-calling orchestration loop and the retrieval-tool
layer of the course-materials RAG backend.

The first half embeds `backend/ai_generator.py` (class `AIGenerator`):
the bounded multi-round tool loop `generate_response`, the per-round
dispatcher `_execute_tools_for_round` and the tool-free synthesis call
`_make_final_response`.  The LLM transport (`self.client.messages.create`)
is modelled as an oracle `llm : Nat → Except PyErr Response` giving the
reply (or the exception) of the i-th API call of the run; the tool manager
is an oracle `ToolMgr`.  Python exceptions are the `PyErr` error component
of `Except`.  Each LLM call and each tool execution is additionally logged
as an `Event`, so call counts and ordering are observable in theorems.

The second half models the retrieval-tool layer (`search_tools.py` and the
`SearchResults` value of `vector_store.py`), whose sources are not part of
the staged files: those definitions are written from the specification
text, as their doc comments state.
-/

namespace RagOrch

/-- A content block of an LLM reply: either a plain text block or a
tool-use block carrying the invocation id, the tool name and the keyword
arguments (`content_block.id`, `.name`, `.input` in the Python SDK). -/
inductive Block where
  | text (t : String)
  | toolUse (id : String) (toolName : String) (input : List (String × String))
deriving DecidableEq, Repr

/-- An LLM reply: `stop_reason` and the list of content blocks
(`response.stop_reason`, `response.content`). -/
structure Response where
  stop_reason : String
  content : List Block
deriving DecidableEq, Repr

/-- One entry of the batched tool-result turn, the Python dict
`{"type": "tool_result", "tool_use_id": ..., "content": ...}` built in
`_execute_tools_for_round`. -/
structure ToolResult where
  type : String
  tool_use_id : String
  content : String
deriving DecidableEq, Repr

/-- The content of one conversation message: the plain-text user query, an
assistant reply's raw block list, or a batched tool-result list. -/
inductive MsgContent where
  | text (s : String)
  | blocks (bs : List Block)
  | results (rs : List ToolResult)
deriving DecidableEq, Repr

/-- One conversation message, the Python dict `{"role": ..., "content": ...}`. -/
structure Message where
  role : String
  content : MsgContent
deriving DecidableEq, Repr

/-- A Python exception as observed by `generate_response`: an exception
raised by a collaborator (the LLM transport or a tool), or one of the
runtime errors the method itself can trigger. -/
inductive PyErr where
  | raised (msg : String)
  | attributeError
  | indexError
  | unboundLocal
deriving DecidableEq, Repr

/-- `str(e)` for a `PyErr`, as used by the exception handler at line 129
of `ai_generator.py`. -/
def pyStr : PyErr → String
  | .raised m => m
  | .attributeError => "AttributeError"
  | .indexError => "IndexError"
  | .unboundLocal => "UnboundLocalError"

/-- `response.content[0].text`: IndexError on empty content, AttributeError
when the first block is a tool-use block (which carries no `text`). -/
def firstBlockText : List Block → Except PyErr String
  | [] => .error .indexError
  | .text t :: _ => .ok t
  | .toolUse _ _ _ :: _ => .error .attributeError

/-- Lines 106-112 of `ai_generator.py`: tool use was signalled but no tool
manager is configured.  The first content block's text is returned when that
block is a plain text block (it then has a `text` attribute and its `type`
is not `"tool_use"`); otherwise the fixed fallback string. -/
def noManagerResult : List Block → String
  | .text t :: _ => t
  | _ => "Tool requested but no tool manager available"

/-- The tool manager as the orchestrator sees it: `execute_tool(name,
**input)` returns a result string or raises. -/
structure ToolMgr where
  execute_tool : String → List (String × String) → Except PyErr String

/-- An observable event of an orchestration run: an LLM API call (recording
whether tool definitions were attached and the message list sent), or one
tool execution (recording the tool name and arguments passed). -/
inductive Event where
  | call (withTools : Bool) (messages : List Message)
  | exec (toolName : String) (input : List (String × String))
deriving DecidableEq, Repr

/-- `true` exactly on LLM-call events. -/
def isCall : Event → Bool
  | .call _ _ => true
  | .exec _ _ => false

/-- `true` exactly on tool-execution events. -/
def isExec : Event → Bool
  | .call _ _ => false
  | .exec _ _ => true

/-- The `for content_block in response.content` loop of
`_execute_tools_for_round` (lines 153-165): execute every tool-use block in
order, build one `tool_result` entry per executed invocation.  The first
component is the collected result list, or the first exception raised by a
tool; the second component logs the executions that were issued (the raising
call included). -/
def collectResults (mgr : ToolMgr) :
    List Block → Except PyErr (List ToolResult) × List Event
  | [] => (.ok [], [])
  | .text _ :: rest => collectResults mgr rest
  | .toolUse i n inp :: rest =>
    match mgr.execute_tool n inp with
    | .error e => (.error e, [.exec n inp])
    | .ok r =>
      match collectResults mgr rest with
      | (.error e, evs) => (.error e, .exec n inp :: evs)
      | (.ok rs, evs) => (.ok (⟨"tool_result", i, r⟩ :: rs), .exec n inp :: evs)

/-- `AIGenerator._execute_tools_for_round` (lines 137-171): append the
assistant turn holding the reply's raw content, execute all tool-use blocks,
and append the batched results as one user turn when at least one result was
collected.  Returns the `(updated_messages, tool_results)` pair (or the
escaped exception) together with the execution events. -/
def execute_tools_for_round (mgr : ToolMgr) (resp : Response)
    (messages : List Message) :
    Except PyErr (List Message × List ToolResult) × List Event :=
  let messages1 := messages ++ [⟨"assistant", .blocks resp.content⟩]
  match collectResults mgr resp.content with
  | (.error e, evs) => (.error e, evs)
  | (.ok rs, evs) =>
    let messages2 := if rs.isEmpty then messages1
      else messages1 ++ [⟨"user", .results rs⟩]
    (.ok (messages2, rs), evs)

/-- `AIGenerator._make_final_response` (lines 173-193): one more LLM call,
issued without tool definitions, whose first content block's text is the
result. -/
def make_final_response (llm : Nat → Except PyErr Response) (callIdx : Nat) :
    Except PyErr String :=
  match llm callIdx with
  | .error e => .error e
  | .ok r => firstBlockText r.content

/-- The failure string built by the exception handler at line 129 of
`ai_generator.py`. -/
def toolFailMsg (e : PyErr) : String :=
  "Tool execution failed: " ++ pyStr e ++ ". Unable to provide complete response."

/-- Lines 121-123: the final synthesis call, still inside the `try` block of
lines 114-129, so an exception it raises (transport or the text read) is
converted to the `toolFailMsg` string. -/
def finalStep (llm : Nat → Except PyErr Response) (callIdx : Nat)
    (trace2 : List Event) : Except PyErr (String × List Event) :=
  match make_final_response llm callIdx with
  | .error e => .ok (toolFailMsg e, trace2)
  | .ok t => .ok (t, trace2)

/-- Line 132: return the reply's first block text (outside any `try`, so a
failure of the read propagates). -/
def textReturn (resp : Response) (trace1 : List Event) :
    Except PyErr (String × List Event) :=
  match firstBlockText resp.content with
  | .error e => .error e
  | .ok t => .ok (t, trace1)

/-- Line 135, after the loop: read the local `response`.  When the loop body
never ran the local was never assigned, an `UnboundLocalError`. -/
def loopFallback (lastResp : Option Response) (trace : List Event) :
    Except PyErr (String × List Event) :=
  match lastResp with
  | none => .error .unboundLocal
  | some r =>
    match firstBlockText r.content with
    | .error e => .error e
    | .ok t => .ok (t, trace)

/-- The `while current_round <= max_rounds` loop of
`AIGenerator.generate_response` (lines 85-135).  `callIdx` is the index of
the next LLM call, `lastResp` the Python local `response` (unassigned before
the first iteration), `trace` the events already logged.  The `try` block of
lines 114-126 covers the dispatch AND the final synthesis call, so an
exception from either is converted to the `toolFailMsg` string; an exception
of an in-loop LLM call (line 99) and of the direct text return (line 132)
propagates.  The branch after the loop models line 135, which reads the
local `response`: `UnboundLocalError` when no iteration ever ran. -/
def genLoop (llm : Nat → Except PyErr Response) (tm : Option ToolMgr)
    (toolsPresent : Bool) (callIdx : Nat) (messages : List Message)
    (lastResp : Option Response) (currentRound maxRounds : Int)
    (trace : List Event) : Except PyErr (String × List Event) :=
  if _h : currentRound ≤ maxRounds then
    match llm callIdx with
    | .error e => .error e
    | .ok response =>
      let trace1 := trace ++ [.call toolsPresent messages]
      if response.stop_reason = "tool_use" then
        match tm with
        | none => .ok (noManagerResult response.content, trace1)
        | some mgr =>
          match execute_tools_for_round mgr response messages with
          | (.error e, evs) => .ok (toolFailMsg e, trace1 ++ evs)
          | (.ok (messages2, _), evs) =>
            if maxRounds ≤ currentRound then
              finalStep llm (callIdx + 1) (trace1 ++ evs ++ [.call false messages2])
            else
              genLoop llm tm toolsPresent (callIdx + 1) messages2
                (some response) (currentRound + 1) maxRounds (trace1 ++ evs)
      else
        textReturn response trace1
  else
    loopFallback lastResp trace
termination_by (maxRounds + 1 - currentRound).toNat
decreasing_by omega

/-- `AIGenerator.generate_response` (lines 54-135): conversation state starts
as the single user turn holding the query, `current_round` starts at 1, no
LLM call has been made yet.  `toolsPresent` models the truthiness of the
`tools` argument (tool definitions attached to every in-loop call). -/
def generate_response (llm : Nat → Except PyErr Response) (tm : Option ToolMgr)
    (toolsPresent : Bool) (query : String) (maxRounds : Int) :
    Except PyErr (String × List Event) :=
  genLoop llm tm toolsPresent 0 [⟨"user", .text query⟩] none 1 maxRounds []

/-- A tool invocation as carried by a tool-use content block. -/
structure Invocation where
  id : String
  toolName : String
  input : List (String × String)
deriving DecidableEq, Repr

/-- The tool invocations carried by a reply's content, in block order. -/
def invocations : List Block → List Invocation
  | [] => []
  | .text _ :: rest => invocations rest
  | .toolUse i n inp :: rest => ⟨i, n, inp⟩ :: invocations rest

/-- The value of a successful tool execution (arbitrary on the error case;
used only under a success hypothesis). -/
def okValue : Except PyErr String → String
  | .ok s => s
  | .error e => pyStr e

/-- One tool-execution event per invocation of a reply, in invocation order. -/
def execEvents (bs : List Block) : List Event :=
  (invocations bs).map fun v => Event.exec v.toolName v.input

/-- The batched tool-result list a fully successful dispatch produces: one
`tool_result` entry per invocation, in invocation order, tagged with the id
of the invocation it answers and carrying that execution's result string. -/
def expectedResults (mgr : ToolMgr) (bs : List Block) : List ToolResult :=
  (invocations bs).map fun v =>
    ⟨"tool_result", v.id, okValue (mgr.execute_tool v.toolName v.input)⟩

/-- The conversation state after a successful dispatch round: the assistant
turn holding the reply's raw content, then — when at least one result was
collected — the single user turn holding the batched results. -/
def postMsgs (msgs : List Message) (resp : Response) (rs : List ToolResult) :
    List Message :=
  let m1 := msgs ++ [⟨"assistant", .blocks resp.content⟩]
  if rs.isEmpty then m1 else m1 ++ [⟨"user", .results rs⟩]

/-! ### Unfolding lemmas for the orchestration loop -/

theorem genLoop_llm_error (llm : Nat → Except PyErr Response) (tm : Option ToolMgr)
    (tp : Bool) (ci : Nat) (msgs : List Message) (lr : Option Response)
    (c R : Int) (trace : List Event) (e : PyErr)
    (hcr : c ≤ R) (hl : llm ci = .error e) :
    genLoop llm tm tp ci msgs lr c R trace = .error e := by
  rw [genLoop.eq_def]
  simp [hcr, hl]

theorem genLoop_no_mgr (llm : Nat → Except PyErr Response) (tp : Bool)
    (ci : Nat) (msgs : List Message) (lr : Option Response)
    (c R : Int) (trace : List Event) (resp : Response)
    (hcr : c ≤ R) (hl : llm ci = .ok resp) (hs : resp.stop_reason = "tool_use") :
    genLoop llm none tp ci msgs lr c R trace =
      .ok (noManagerResult resp.content, trace ++ [.call tp msgs]) := by
  rw [genLoop.eq_def]
  simp [hcr, hl, hs]

theorem genLoop_dispatch_error (llm : Nat → Except PyErr Response) (mgr : ToolMgr)
    (tp : Bool) (ci : Nat) (msgs : List Message) (lr : Option Response)
    (c R : Int) (trace : List Event) (resp : Response) (e : PyErr) (evs : List Event)
    (hcr : c ≤ R) (hl : llm ci = .ok resp) (hs : resp.stop_reason = "tool_use")
    (hd : execute_tools_for_round mgr resp msgs = (.error e, evs)) :
    genLoop llm (some mgr) tp ci msgs lr c R trace =
      .ok (toolFailMsg e, (trace ++ [.call tp msgs]) ++ evs) := by
  rw [genLoop.eq_def]
  simp [hcr, hl, hs, hd]

theorem genLoop_final (llm : Nat → Except PyErr Response) (mgr : ToolMgr)
    (tp : Bool) (ci : Nat) (msgs : List Message) (lr : Option Response)
    (c R : Int) (trace : List Event) (resp : Response)
    (m2 : List Message) (rs : List ToolResult) (evs : List Event)
    (hcr : c ≤ R) (hRc : R ≤ c) (hl : llm ci = .ok resp)
    (hs : resp.stop_reason = "tool_use")
    (hd : execute_tools_for_round mgr resp msgs = (.ok (m2, rs), evs)) :
    genLoop llm (some mgr) tp ci msgs lr c R trace =
      finalStep llm (ci + 1) ((trace ++ [.call tp msgs]) ++ evs ++ [.call false m2]) := by
  rw [genLoop.eq_def]
  simp [hcr, hRc, hl, hs, hd]

theorem genLoop_continue (llm : Nat → Except PyErr Response) (mgr : ToolMgr)
    (tp : Bool) (ci : Nat) (msgs : List Message) (lr : Option Response)
    (c R : Int) (trace : List Event) (resp : Response)
    (m2 : List Message) (rs : List ToolResult) (evs : List Event)
    (hcr : c ≤ R) (hRc : c < R) (hl : llm ci = .ok resp)
    (hs : resp.stop_reason = "tool_use")
    (hd : execute_tools_for_round mgr resp msgs = (.ok (m2, rs), evs)) :
    genLoop llm (some mgr) tp ci msgs lr c R trace =
      genLoop llm (some mgr) tp (ci + 1) m2 (some resp) (c + 1) R
        ((trace ++ [.call tp msgs]) ++ evs) := by
  rw [genLoop.eq_def]
  simp [hcr, hl, hs, hd, not_le.mpr hRc]

theorem genLoop_no_tool_use (llm : Nat → Except PyErr Response) (tm : Option ToolMgr)
    (tp : Bool) (ci : Nat) (msgs : List Message) (lr : Option Response)
    (c R : Int) (trace : List Event) (resp : Response)
    (hcr : c ≤ R) (hl : llm ci = .ok resp) (hs : resp.stop_reason ≠ "tool_use") :
    genLoop llm tm tp ci msgs lr c R trace =
      textReturn resp (trace ++ [.call tp msgs]) := by
  rw [genLoop.eq_def]
  simp [hcr, hl, hs]

theorem genLoop_exit (llm : Nat → Except PyErr Response) (tm : Option ToolMgr)
    (tp : Bool) (ci : Nat) (msgs : List Message) (lr : Option Response)
    (c R : Int) (trace : List Event)
    (hcr : ¬ c ≤ R) :
    genLoop llm tm tp ci msgs lr c R trace = loopFallback lr trace := by
  rw [genLoop.eq_def]
  simp [hcr]

/-! ### Dispatch characterization -/

theorem etfr_of_collect (mgr : ToolMgr) (resp : Response) (msgs : List Message)
    (rs : List ToolResult) (evs : List Event)
    (hcol : collectResults mgr resp.content = (.ok rs, evs)) :
    execute_tools_for_round mgr resp msgs = (.ok (postMsgs msgs resp rs, rs), evs) := by
  unfold execute_tools_for_round postMsgs
  rw [hcol]

theorem collect_all_ok (mgr : ToolMgr) (bs : List Block)
    (h : ∀ v ∈ invocations bs, (mgr.execute_tool v.toolName v.input).isOk = true) :
    collectResults mgr bs = (.ok (expectedResults mgr bs), execEvents bs) := by
  induction bs with
  | nil => simp [collectResults, expectedResults, execEvents, invocations]
  | cons b rest ih =>
    cases b with
    | text t =>
      simp only [invocations] at h
      simpa [collectResults, expectedResults, execEvents, invocations] using ih h
    | toolUse i n inp =>
      have hhead : (mgr.execute_tool n inp).isOk = true := by
        have := h ⟨i, n, inp⟩ (by simp [invocations])
        simpa using this
      obtain ⟨s, hsok⟩ : ∃ s, mgr.execute_tool n inp = .ok s := by
        cases hx : mgr.execute_tool n inp with
        | error e => rw [hx] at hhead; simp [Except.isOk, Except.toBool] at hhead
        | ok s => exact ⟨s, rfl⟩
      have hrest : ∀ v ∈ invocations rest,
          (mgr.execute_tool v.toolName v.input).isOk = true := by
        intro v hv
        exact h v (by simp [invocations, hv])
      simp [collectResults, hsok, ih hrest, expectedResults, execEvents,
        invocations, okValue]

theorem collect_no_invocations (mgr : ToolMgr) (bs : List Block)
    (h : invocations bs = []) : collectResults mgr bs = (.ok [], []) := by
  induction bs with
  | nil => simp [collectResults]
  | cons b rest ih =>
    cases b with
    | text t =>
      simp only [invocations] at h
      simpa [collectResults] using ih h
    | toolUse i n inp => simp [invocations] at h

theorem collect_events_exec (mgr : ToolMgr) (bs : List Block) :
    ∀ o evs, collectResults mgr bs = (o, evs) → ∀ e ∈ evs, isExec e = true := by
  induction bs with
  | nil =>
    intro o evs h e he
    simp [collectResults] at h
    rw [h.2] at he
    simp at he
  | cons b rest ih =>
    intro o evs h e he
    cases b with
    | text t =>
      exact ih o evs (by simpa [collectResults] using h) e he
    | toolUse i n inp =>
      cases hx : mgr.execute_tool n inp with
      | error er =>
        simp [collectResults, hx] at h
        rw [← h.2] at he
        simp at he
        rw [he]
        rfl
      | ok s =>
        cases hc : collectResults mgr rest with
        | mk o2 evs2 =>
          cases o2 with
          | error e2 =>
            simp [collectResults, hx, hc] at h
            rw [← h.2] at he
            rcases List.mem_cons.mp he with h1 | h1
            · rw [h1]; rfl
            · exact ih _ _ hc e h1
          | ok rs2 =>
            simp [collectResults, hx, hc] at h
            rw [← h.2] at he
            rcases List.mem_cons.mp he with h1 | h1
            · rw [h1]; rfl
            · exact ih _ _ hc e h1

/-! ### Trace structure of the loop -/

/-- A successful run only ever appends to the event log it was given. -/
theorem genLoop_trace_prefix (llm : Nat → Except PyErr Response)
    (tm : Option ToolMgr) (tp : Bool) (R : Int) :
    ∀ (fuel : Nat) (ci : Nat) (msgs : List Message) (lr : Option Response)
      (c : Int) (trace : List Event) (s : String) (tr : List Event),
      (R + 1 - c).toNat ≤ fuel →
      genLoop llm tm tp ci msgs lr c R trace = .ok (s, tr) →
      ∃ ext, tr = trace ++ ext := by
  intro fuel
  induction fuel with
  | zero =>
    intro ci msgs lr c trace s tr hf h
    have hcr : ¬ c ≤ R := by omega
    rw [genLoop_exit _ _ _ _ _ _ _ _ _ hcr] at h
    cases lr with
    | none => simp [loopFallback] at h
    | some r =>
      cases hft : firstBlockText r.content with
      | error e => simp [loopFallback, hft] at h
      | ok t =>
        simp [loopFallback, hft] at h
        exact ⟨[], by simp [← h.2]⟩
  | succ n ih =>
    intro ci msgs lr c trace s tr hf h
    by_cases hcr : c ≤ R
    · cases hl : llm ci with
      | error e =>
        rw [genLoop_llm_error _ _ _ _ _ _ _ _ _ _ hcr hl] at h
        simp at h
      | ok resp =>
        by_cases hs : resp.stop_reason = "tool_use"
        · cases tm with
          | none =>
            rw [genLoop_no_mgr _ _ _ _ _ _ _ _ _ hcr hl hs] at h
            simp at h
            exact ⟨[.call tp msgs], by simp [← h.2]⟩
          | some mgr =>
            cases hd : execute_tools_for_round mgr resp msgs with
            | mk o evs =>
              cases o with
              | error e =>
                rw [genLoop_dispatch_error _ _ _ _ _ _ _ _ _ _ _ _ hcr hl hs hd] at h
                simp at h
                exact ⟨.call tp msgs :: evs, by simp [← h.2]⟩
              | ok p =>
                obtain ⟨m2, rs⟩ := p
                by_cases hRc : R ≤ c
                · rw [genLoop_final _ _ _ _ _ _ _ _ _ _ _ _ _ hcr hRc hl hs hd] at h
                  unfold finalStep at h
                  cases hmf : make_final_response llm (ci + 1) with
                  | error e =>
                    rw [hmf] at h
                    simp at h
                    exact ⟨.call tp msgs :: (evs ++ [.call false m2]), by simp [← h.2]⟩
                  | ok t =>
                    rw [hmf] at h
                    simp at h
                    exact ⟨.call tp msgs :: (evs ++ [.call false m2]), by simp [← h.2]⟩
                · have hlt : c < R := not_le.mp hRc
                  rw [genLoop_continue _ _ _ _ _ _ _ _ _ _ _ _ _ hcr hlt hl hs hd] at h
                  obtain ⟨ext, hext⟩ :=
                    ih (ci + 1) m2 (some resp) (c + 1)
                      ((trace ++ [.call tp msgs]) ++ evs) s tr (by omega) h
                  exact ⟨.call tp msgs :: (evs ++ ext), by simp [hext]⟩
        · rw [genLoop_no_tool_use _ _ _ _ _ _ _ _ _ _ hcr hl hs] at h
          unfold textReturn at h
          cases hft : firstBlockText resp.content with
          | error e => rw [hft] at h; simp at h
          | ok t =>
            rw [hft] at h
            simp at h
            exact ⟨[.call tp msgs], by simp [← h.2]⟩
    · rw [genLoop_exit _ _ _ _ _ _ _ _ _ hcr] at h
      cases lr with
      | none => simp [loopFallback] at h
      | some r =>
        cases hft : firstBlockText r.content with
        | error e => simp [loopFallback, hft] at h
        | ok t =>
          simp [loopFallback, hft] at h
          exact ⟨[], by simp [← h.2]⟩

/-- While the round budget is not exhausted, the first event a successful
continuation logs is the LLM call carrying exactly the current conversation
state: no tool execution and no other call precedes it. -/
theorem genLoop_first_call (llm : Nat → Except PyErr Response)
    (tm : Option ToolMgr) (tp : Bool) (ci : Nat) (msgs : List Message)
    (lr : Option Response) (c R : Int) (trace : List Event)
    (s : String) (tr : List Event)
    (hcr : c ≤ R)
    (h : genLoop llm tm tp ci msgs lr c R trace = .ok (s, tr)) :
    ∃ ext, tr = trace ++ .call tp msgs :: ext := by
  cases hl : llm ci with
  | error e =>
    rw [genLoop_llm_error _ _ _ _ _ _ _ _ _ _ hcr hl] at h
    simp at h
  | ok resp =>
    by_cases hs : resp.stop_reason = "tool_use"
    · cases tm with
      | none =>
        rw [genLoop_no_mgr _ _ _ _ _ _ _ _ _ hcr hl hs] at h
        simp at h
        exact ⟨[], by simp [← h.2]⟩
      | some mgr =>
        cases hd : execute_tools_for_round mgr resp msgs with
        | mk o evs =>
          cases o with
          | error e =>
            rw [genLoop_dispatch_error _ _ _ _ _ _ _ _ _ _ _ _ hcr hl hs hd] at h
            simp at h
            exact ⟨evs, by simp [← h.2]⟩
          | ok p =>
            obtain ⟨m2, rs⟩ := p
            by_cases hRc : R ≤ c
            · rw [genLoop_final _ _ _ _ _ _ _ _ _ _ _ _ _ hcr hRc hl hs hd] at h
              unfold finalStep at h
              cases hmf : make_final_response llm (ci + 1) with
              | error e =>
                rw [hmf] at h
                simp at h
                exact ⟨evs ++ [.call false m2], by simp [← h.2]⟩
              | ok t =>
                rw [hmf] at h
                simp at h
                exact ⟨evs ++ [.call false m2], by simp [← h.2]⟩
            · have hlt : c < R := not_le.mp hRc
              rw [genLoop_continue _ _ _ _ _ _ _ _ _ _ _ _ _ hcr hlt hl hs hd] at h
              obtain ⟨ext, hext⟩ :=
                genLoop_trace_prefix llm (some mgr) tp R ((R + 1 - (c + 1)).toNat)
                  (ci + 1) m2 (some resp) (c + 1)
                  ((trace ++ [.call tp msgs]) ++ evs) s tr (le_refl _) h
              exact ⟨evs ++ ext, by simp [hext]⟩
    · rw [genLoop_no_tool_use _ _ _ _ _ _ _ _ _ _ hcr hl hs] at h
      unfold textReturn at h
      cases hft : firstBlockText resp.content with
      | error e => rw [hft] at h; simp at h
      | ok t =>
        rw [hft] at h
        simp at h
        exact ⟨[], by simp [← h.2]⟩

/-- The event log of `k` consecutive dispatch rounds: round `j` contributes
its LLM call (tool definitions attached exactly when `tp` is true, the
conversation state sent being `msgsAt j`) followed by that round's
tool-execution events `evsAt j`. -/
def seg (tp : Bool) (msgsAt : Nat → List Message) (evsAt : Nat → List Event) :
    Nat → List Event
  | 0 => []
  | k + 1 =>
    Event.call tp (msgsAt 0) :: evsAt 0 ++
      seg tp (fun j => msgsAt (j + 1)) (fun j => evsAt (j + 1)) k

theorem isCall_of_isExec (e : Event) (h : isExec e = true) : isCall e = false := by
  cases e with
  | call b m => simp [isExec] at h
  | exec n i => rfl

/-- `k` dispatch rounds log exactly `k` LLM calls. -/
theorem seg_countP_isCall (tp : Bool) :
    ∀ (k : Nat) (msgsAt : Nat → List Message) (evsAt : Nat → List Event),
      (∀ j < k, ∀ e ∈ evsAt j, isExec e = true) →
      (seg tp msgsAt evsAt k).countP isCall = k := by
  intro k
  induction k with
  | zero => intro msgsAt evsAt _; simp [seg]
  | succ n ih =>
    intro msgsAt evsAt h
    have h0 : (evsAt 0).countP isCall = 0 := by
      rw [List.countP_eq_zero]
      intro e he
      simp [isCall_of_isExec e (h 0 (by omega) e he)]
    have hrest := ih (fun j => msgsAt (j + 1)) (fun j => evsAt (j + 1))
      (fun j hj e he => h (j + 1) (by omega) e he)
    simp [seg, List.countP_cons, List.countP_append, h0, hrest, isCall]

/-- The loop behaviour when the next `k ≥ 1` replies all signal tool use
with successful dispatch and the budget runs out exactly after them: each
round dispatches, the budget-exhaustion branch then issues the tool-free
synthesis call, whose text is the result. -/
theorem genLoop_rounds_then_final (llm : Nat → Except PyErr Response)
    (mgr : ToolMgr) (tp : Bool) (R : Int) (respF : Nat → Response)
    (rsF : Nat → List ToolResult) (evsF : Nat → List Event) (t : String) :
    ∀ (k : Nat) (ci : Nat) (msgs : List Message) (lr : Option Response)
      (trace : List Event),
      1 ≤ k → (ci : Int) + k = R →
      (∀ j < k, llm (ci + j) = .ok (respF (ci + j)) ∧
        (respF (ci + j)).stop_reason = "tool_use" ∧
        collectResults mgr (respF (ci + j)).content =
          (.ok (rsF (ci + j)), evsF (ci + j))) →
      make_final_response llm (ci + k) = .ok t →
      ∃ msgsAt : Nat → List Message, msgsAt 0 = msgs ∧
        genLoop llm (some mgr) tp ci msgs lr ((ci : Int) + 1) R trace =
          .ok (t, trace ++ seg tp msgsAt (fun j => evsF (ci + j)) k ++
            [Event.call false (msgsAt k)]) := by
  intro k
  induction k with
  | zero =>
    intro ci msgs lr trace h1
    exact absurd h1 (by omega)
  | succ n ih =>
    intro ci msgs lr trace h1 h2 h3 h4
    obtain ⟨hl, hs, hcol⟩ := h3 0 (by omega)
    rw [Nat.add_zero] at hl hs hcol
    have hd := etfr_of_collect mgr (respF ci) msgs (rsF ci) (evsF ci) hcol
    rcases Nat.eq_zero_or_pos n with hn | hn
    · subst hn
      have hR : (ci : Int) + 1 = R := by push_cast at h2; omega
      have hcr : (ci : Int) + 1 ≤ R := le_of_eq hR
      have hRc : R ≤ (ci : Int) + 1 := ge_of_eq hR
      rw [genLoop_final _ _ _ _ _ _ _ _ _ _ _ _ _ hcr hRc hl hs hd]
      rw [show ci + 1 = ci + (0 + 1) from by omega] at h4
      unfold finalStep
      rw [h4]
      refine ⟨fun j => match j with
        | 0 => msgs
        | _ + 1 => postMsgs msgs (respF ci) (rsF ci), rfl, ?_⟩
      simp [seg]
    · have hlt : (ci : Int) + 1 < R := by push_cast at h2; omega
      have hcr : (ci : Int) + 1 ≤ R := le_of_lt hlt
      rw [genLoop_continue _ _ _ _ _ _ _ _ _ _ _ _ _ hcr hlt hl hs hd]
      have h2' : ((ci + 1 : Nat) : Int) + n = R := by push_cast; push_cast at h2; omega
      have h3' : ∀ j < n, llm (ci + 1 + j) = .ok (respF (ci + 1 + j)) ∧
          (respF (ci + 1 + j)).stop_reason = "tool_use" ∧
          collectResults mgr (respF (ci + 1 + j)).content =
            (.ok (rsF (ci + 1 + j)), evsF (ci + 1 + j)) := by
        intro j hj
        have := h3 (j + 1) (by omega)
        rwa [show ci + (j + 1) = ci + 1 + j from by omega] at this
      have h4' : make_final_response llm (ci + 1 + n) = .ok t := by
        rwa [show ci + (n + 1) = ci + 1 + n from by omega] at h4
      obtain ⟨msgsAt', hm0, hrec⟩ :=
        ih (ci + 1) (postMsgs msgs (respF ci) (rsF ci)) (some (respF ci))
          ((trace ++ [.call tp msgs]) ++ evsF ci) hn h2' h3' h4'
      rw [show ((ci + 1 : Nat) : Int) + 1 = ((ci : Int) + 1) + 1 from by push_cast; ring]
        at hrec
      rw [hrec]
      refine ⟨fun j => match j with
        | 0 => msgs
        | j + 1 => msgsAt' j, rfl, ?_⟩
      have hev : (fun j => evsF (ci + 1 + j)) = (fun j => evsF (ci + (j + 1))) :=
        funext fun j => congrArg evsF (by omega)
      rw [hev] at hrec ⊢
      simp [seg, hm0]

/-- The loop behaviour when the next `k` replies all signal tool use with
successful dispatch and the reply after them does not: that reply's text is
returned directly, no further call or execution. -/
theorem genLoop_rounds_then_stop (llm : Nat → Except PyErr Response)
    (mgr : ToolMgr) (tp : Bool) (R : Int) (respF : Nat → Response)
    (rsF : Nat → List ToolResult) (evsF : Nat → List Event)
    (respN : Response) (t : String) :
    ∀ (k : Nat) (ci : Nat) (msgs : List Message) (lr : Option Response)
      (trace : List Event),
      ((ci : Int) + 1) + k ≤ R →
      (∀ j < k, llm (ci + j) = .ok (respF (ci + j)) ∧
        (respF (ci + j)).stop_reason = "tool_use" ∧
        collectResults mgr (respF (ci + j)).content =
          (.ok (rsF (ci + j)), evsF (ci + j))) →
      llm (ci + k) = .ok respN →
      respN.stop_reason ≠ "tool_use" →
      firstBlockText respN.content = .ok t →
      ∃ msgsAt : Nat → List Message, msgsAt 0 = msgs ∧
        genLoop llm (some mgr) tp ci msgs lr ((ci : Int) + 1) R trace =
          .ok (t, trace ++ seg tp msgsAt (fun j => evsF (ci + j)) k ++
            [Event.call tp (msgsAt k)]) := by
  intro k
  induction k with
  | zero =>
    intro ci msgs lr trace hb h3 hlN hsN htN
    have hcr : (ci : Int) + 1 ≤ R := by omega
    rw [Nat.add_zero] at hlN
    rw [genLoop_no_tool_use _ _ _ _ _ _ _ _ _ _ hcr hlN hsN]
    unfold textReturn
    rw [htN]
    exact ⟨fun _ => msgs, rfl, by simp [seg]⟩
  | succ n ih =>
    intro ci msgs lr trace hb h3 hlN hsN htN
    obtain ⟨hl, hs, hcol⟩ := h3 0 (by omega)
    rw [Nat.add_zero] at hl hs hcol
    have hd := etfr_of_collect mgr (respF ci) msgs (rsF ci) (evsF ci) hcol
    have hlt : (ci : Int) + 1 < R := by push_cast at hb; omega
    have hcr : (ci : Int) + 1 ≤ R := le_of_lt hlt
    rw [genLoop_continue _ _ _ _ _ _ _ _ _ _ _ _ _ hcr hlt hl hs hd]
    have hb' : (((ci + 1 : Nat) : Int) + 1) + n ≤ R := by push_cast; push_cast at hb; omega
    have h3' : ∀ j < n, llm (ci + 1 + j) = .ok (respF (ci + 1 + j)) ∧
        (respF (ci + 1 + j)).stop_reason = "tool_use" ∧
        collectResults mgr (respF (ci + 1 + j)).content =
          (.ok (rsF (ci + 1 + j)), evsF (ci + 1 + j)) := by
      intro j hj
      have := h3 (j + 1) (by omega)
      rwa [show ci + (j + 1) = ci + 1 + j from by omega] at this
    have hlN' : llm (ci + 1 + n) = .ok respN := by
      rwa [show ci + (n + 1) = ci + 1 + n from by omega] at hlN
    obtain ⟨msgsAt', hm0, hrec⟩ :=
      ih (ci + 1) (postMsgs msgs (respF ci) (rsF ci)) (some (respF ci))
        ((trace ++ [.call tp msgs]) ++ evsF ci) hb' h3' hlN' hsN htN
    rw [show ((ci + 1 : Nat) : Int) + 1 = ((ci : Int) + 1) + 1 from by push_cast; ring]
      at hrec
    rw [hrec]
    refine ⟨fun j => match j with
      | 0 => msgs
      | j + 1 => msgsAt' j, rfl, ?_⟩
    have hev : (fun j => evsF (ci + 1 + j)) = (fun j => evsF (ci + (j + 1))) :=
      funext fun j => congrArg evsF (by omega)
    rw [hev] at hrec ⊢
    simp [seg, hm0]

/-! ### Concrete fixtures used by the witnesses -/

/-- A model that requests one tool on the first call and answers with plain
text afterwards. -/
def llmToolThenText : Nat → Except PyErr Response := fun i =>
  if i = 0 then .ok ⟨"tool_use", [.toolUse "id1" "search" [("query", "x")]]⟩
  else .ok ⟨"end_turn", [.text "done"]⟩

/-- A tool manager whose every execution succeeds with a fixed string. -/
def okMgr : ToolMgr := ⟨fun _ _ => .ok "res"⟩

/-! ### C1 and C4 -/

/-- C1: for every `max_rounds = R ≥ 1`, a configured tool manager and a
model whose replies at the `R` in-loop calls all signal tool use (with every
dispatched execution succeeding), `generate_response` calls the LLM exactly
`R + 1` times and executes tools in exactly `R` dispatch rounds (the event
log is `R` segments of one tool-carrying call followed by that round's
executions), and the `(R+1)`-th call is issued without tool definitions and
its first text block is returned as the final output. -/
theorem claim1_round_bound (llm : Nat → Except PyErr Response) (mgr : ToolMgr)
    (q : String) (R : Nat) (respF : Nat → Response)
    (rsF : Nat → List ToolResult) (evsF : Nat → List Event)
    (fresp : Response) (t : String)
    (hR : 1 ≤ R)
    (hllm : ∀ i < R, llm i = .ok (respF i))
    (hstop : ∀ i < R, (respF i).stop_reason = "tool_use")
    (hcol : ∀ i < R, collectResults mgr (respF i).content = (.ok (rsF i), evsF i))
    (hfin : llm R = .ok fresp)
    (ht : firstBlockText fresp.content = .ok t) :
    ∃ msgsAt : Nat → List Message,
      generate_response llm (some mgr) true q R =
        .ok (t, seg true msgsAt evsF R ++ [Event.call false (msgsAt R)]) ∧
      (seg true msgsAt evsF R ++ [Event.call false (msgsAt R)]).countP isCall
        = R + 1 := by
  have h3 : ∀ j < R, llm (0 + j) = .ok (respF (0 + j)) ∧
      (respF (0 + j)).stop_reason = "tool_use" ∧
      collectResults mgr (respF (0 + j)).content = (.ok (rsF (0 + j)), evsF (0 + j)) := by
    intro j hj
    rw [Nat.zero_add]
    exact ⟨hllm j hj, hstop j hj, hcol j hj⟩
  have h4 : make_final_response llm (0 + R) = .ok t := by
    rw [Nat.zero_add]
    unfold make_final_response
    rw [hfin]
    exact ht
  obtain ⟨msgsAt, hm0, hrun⟩ :=
    genLoop_rounds_then_final llm mgr true R respF rsF evsF t R 0
      [⟨"user", .text q⟩] none [] hR (by simp) h3 h4
  rw [show ((0 : Nat) : Int) + 1 = 1 from by simp] at hrun
  have hev : (fun j => evsF (0 + j)) = evsF := funext fun j => congrArg evsF (Nat.zero_add j)
  rw [hev] at hrun
  have hexec : ∀ j < R, ∀ e ∈ evsF j, isExec e = true := fun j hj e he =>
    collect_events_exec mgr (respF j).content _ _ (hcol j hj) e he
  refine ⟨msgsAt, ?_, ?_⟩
  · unfold generate_response
    rw [hrun]
    simp
  · simp [List.countP_append, seg_countP_isCall true R msgsAt evsF hexec, isCall]

/-- Witness for C1 at `R = 1` with a concrete model and tool manager. -/
theorem claim1_round_bound_witness :
    ∃ msgsAt : Nat → List Message,
      generate_response llmToolThenText (some okMgr) true "q" 1 =
        .ok ("done", seg true msgsAt (fun _ => [Event.exec "search" [("query", "x")]]) 1
          ++ [Event.call false (msgsAt 1)]) ∧
      (seg true msgsAt (fun _ => [Event.exec "search" [("query", "x")]]) 1
        ++ [Event.call false (msgsAt 1)]).countP isCall = 1 + 1 :=
  claim1_round_bound llmToolThenText okMgr "q" 1
    (fun _ => ⟨"tool_use", [.toolUse "id1" "search" [("query", "x")]]⟩)
    (fun _ => [⟨"tool_result", "id1", "res"⟩])
    (fun _ => [.exec "search" [("query", "x")]])
    ⟨"end_turn", [.text "done"]⟩ "done" (by omega)
    (by intro i hi; have h0 : i = 0 := by omega
        subst h0; rfl)
    (by intro i hi; rfl)
    (by intro i hi; rfl)
    rfl rfl

/-- C4: for every `max_rounds = R ≥ 1` and round `i` with `1 ≤ i ≤ R`, if
the replies of rounds `1 .. i-1` signal tool use (dispatch succeeding) and
the reply at round `i` does not, `generate_response` returns that reply's
text, the LLM-call count is exactly `i`, and the event log ends at that
call: no tool execution and no further LLM call happens after round `i-1`'s
dispatch. -/
theorem claim4_early_termination (llm : Nat → Except PyErr Response)
    (mgr : ToolMgr) (q : String) (R i : Nat) (respF : Nat → Response)
    (rsF : Nat → List ToolResult) (evsF : Nat → List Event)
    (respN : Response) (t : String)
    (hi1 : 1 ≤ i) (hiR : i ≤ R)
    (hllm : ∀ j < i - 1, llm j = .ok (respF j))
    (hstop : ∀ j < i - 1, (respF j).stop_reason = "tool_use")
    (hcol : ∀ j < i - 1, collectResults mgr (respF j).content = (.ok (rsF j), evsF j))
    (hlN : llm (i - 1) = .ok respN)
    (hsN : respN.stop_reason ≠ "tool_use")
    (htN : firstBlockText respN.content = .ok t) :
    ∃ msgsAt : Nat → List Message,
      generate_response llm (some mgr) true q R =
        .ok (t, seg true msgsAt evsF (i - 1) ++ [Event.call true (msgsAt (i - 1))]) ∧
      (seg true msgsAt evsF (i - 1)
        ++ [Event.call true (msgsAt (i - 1))]).countP isCall = i := by
  have h3 : ∀ j < i - 1, llm (0 + j) = .ok (respF (0 + j)) ∧
      (respF (0 + j)).stop_reason = "tool_use" ∧
      collectResults mgr (respF (0 + j)).content = (.ok (rsF (0 + j)), evsF (0 + j)) := by
    intro j hj
    rw [Nat.zero_add]
    exact ⟨hllm j hj, hstop j hj, hcol j hj⟩
  have hb : (((0 : Nat) : Int) + 1) + ((i - 1 : Nat) : Int) ≤ (R : Int) := by omega
  have hlN' : llm (0 + (i - 1)) = .ok respN := by rwa [Nat.zero_add]
  obtain ⟨msgsAt, hm0, hrun⟩ :=
    genLoop_rounds_then_stop llm mgr true R respF rsF evsF respN t (i - 1) 0
      [⟨"user", .text q⟩] none [] hb h3 hlN' hsN htN
  rw [show ((0 : Nat) : Int) + 1 = 1 from by simp] at hrun
  have hev : (fun j => evsF (0 + j)) = evsF := funext fun j => congrArg evsF (Nat.zero_add j)
  rw [hev] at hrun
  have hexec : ∀ j < i - 1, ∀ e ∈ evsF j, isExec e = true := fun j hj e he =>
    collect_events_exec mgr (respF j).content _ _ (hcol j hj) e he
  refine ⟨msgsAt, ?_, ?_⟩
  · unfold generate_response
    rw [hrun]
    simp
  · have := seg_countP_isCall true (i - 1) msgsAt evsF hexec
    simp [List.countP_append, this, isCall]
    omega

/-- Witness for C4: at `R = 2`, a direct text reply at round `i = 1` ends the
run after a single LLM call. -/
theorem claim4_early_termination_witness :
    ∃ msgsAt : Nat → List Message,
      generate_response (fun _ => .ok ⟨"end_turn", [.text "direct"]⟩)
          (some okMgr) true "q" 2 =
        .ok ("direct", seg true msgsAt (fun _ => []) (1 - 1)
          ++ [Event.call true (msgsAt (1 - 1))]) ∧
      (seg true msgsAt (fun _ => []) (1 - 1)
        ++ [Event.call true (msgsAt (1 - 1))]).countP isCall = 1 :=
  claim4_early_termination (fun _ => .ok ⟨"end_turn", [.text "direct"]⟩)
    okMgr "q" 2 1 (fun _ => ⟨"end_turn", []⟩) (fun _ => []) (fun _ => [])
    ⟨"end_turn", [.text "direct"]⟩ "direct" (by omega) (by omega)
    (by intro j hj; omega)
    (by intro j hj; omega)
    (by intro j hj; omega)
    rfl (by simp) rfl

/-! ### C9 -/

theorem firstBlockText_ne_unbound (bs : List Block) :
    firstBlockText bs ≠ .error .unboundLocal := by
  match bs with
  | [] => simp [firstBlockText]
  | .text t :: _ => simp [firstBlockText]
  | .toolUse _ _ _ :: _ => simp [firstBlockText]

/-- As long as the loop is entered with budget remaining, the unassigned-read
error of the post-loop fallback can never be the outcome (unless the LLM
oracle itself returns that very error). -/
theorem genLoop_ne_unbound (llm : Nat → Except PyErr Response)
    (tm : Option ToolMgr) (tp : Bool) (R : Int)
    (hllm : ∀ i, llm i ≠ .error .unboundLocal) :
    ∀ (fuel : Nat) (ci : Nat) (msgs : List Message) (lr : Option Response)
      (c : Int) (trace : List Event),
      (R + 1 - c).toNat ≤ fuel → c ≤ R →
      genLoop llm tm tp ci msgs lr c R trace ≠ .error .unboundLocal := by
  intro fuel
  induction fuel with
  | zero =>
    intro ci msgs lr c trace hf hc
    omega
  | succ n ih =>
    intro ci msgs lr c trace hf hc h
    cases hl : llm ci with
    | error e =>
      rw [genLoop_llm_error _ _ _ _ _ _ _ _ _ _ hc hl] at h
      simp at h
      exact hllm ci (by rw [hl, h])
    | ok resp =>
      by_cases hs : resp.stop_reason = "tool_use"
      · cases tm with
        | none =>
          rw [genLoop_no_mgr _ _ _ _ _ _ _ _ _ hc hl hs] at h
          simp at h
        | some mgr =>
          cases hd : execute_tools_for_round mgr resp msgs with
          | mk o evs =>
            cases o with
            | error e =>
              rw [genLoop_dispatch_error _ _ _ _ _ _ _ _ _ _ _ _ hc hl hs hd] at h
              simp at h
            | ok p =>
              obtain ⟨m2, rs⟩ := p
              by_cases hRc : R ≤ c
              · rw [genLoop_final _ _ _ _ _ _ _ _ _ _ _ _ _ hc hRc hl hs hd] at h
                unfold finalStep at h
                cases hmf : make_final_response llm (ci + 1) with
                | error e => rw [hmf] at h; simp at h
                | ok t => rw [hmf] at h; simp at h
              · have hlt : c < R := not_le.mp hRc
                rw [genLoop_continue _ _ _ _ _ _ _ _ _ _ _ _ _ hc hlt hl hs hd] at h
                exact ih (ci + 1) m2 (some resp) (c + 1)
                  ((trace ++ [.call tp msgs]) ++ evs) (by omega) (by omega) h
      · rw [genLoop_no_tool_use _ _ _ _ _ _ _ _ _ _ hc hl hs] at h
        unfold textReturn at h
        cases hft : firstBlockText resp.content with
        | error e =>
          rw [hft] at h
          simp at h
          exact firstBlockText_ne_unbound resp.content (by rw [hft, h])
        | ok t => rw [hft] at h; simp at h

/-- C9: `generate_response` returns a string only under the precondition
`max_rounds ≥ 1`.  For `max_rounds ≤ 0` the round loop never runs and the
trailing fallback reads the never-assigned local `response`, so the call
ends in the `UnboundLocalError` fault instead of a string; and whenever
`max_rounds ≥ 1` (and the transport does not itself produce that fault) the
fallback's unassigned read is unreachable: the outcome is never that fault. -/
theorem claim9_min_rounds_precondition :
    (∀ (llm : Nat → Except PyErr Response) (tm : Option ToolMgr) (tp : Bool)
      (q : String) (R : Int), R ≤ 0 →
      generate_response llm tm tp q R = .error .unboundLocal) ∧
    (∀ (llm : Nat → Except PyErr Response) (tm : Option ToolMgr) (tp : Bool)
      (q : String) (R : Int), 1 ≤ R →
      (∀ i, llm i ≠ .error .unboundLocal) →
      generate_response llm tm tp q R ≠ .error .unboundLocal) := by
  constructor
  · intro llm tm tp q R hR
    unfold generate_response
    rw [genLoop_exit _ _ _ _ _ _ _ _ _ (by omega)]
    rfl
  · intro llm tm tp q R hR hllm
    unfold generate_response
    exact genLoop_ne_unbound llm tm tp R hllm (R.toNat) 0
      [⟨"user", .text q⟩] none 1 [] (by omega) (by omega)

/-- Witness for C9 at `max_rounds = 0` and `max_rounds = 1` with a concrete
model. -/
theorem claim9_min_rounds_precondition_witness :
    generate_response llmToolThenText none true "q" 0 = .error .unboundLocal ∧
    generate_response llmToolThenText none true "q" 1 ≠ .error .unboundLocal :=
  ⟨claim9_min_rounds_precondition.1 llmToolThenText none true "q" 0 (by omega),
   claim9_min_rounds_precondition.2 llmToolThenText none true "q" 1 (by omega)
     (by intro i
         unfold llmToolThenText
         by_cases hi : i = 0 <;> simp [hi])⟩

/-! ### C2 -/

/-- A model that requests one tool on the first call and whose transport
fails on every later call. -/
def llmFinalBoom : Nat → Except PyErr Response := fun i =>
  if i = 0 then .ok ⟨"tool_use", [.toolUse "id1" "search" [("query", "x")]]⟩
  else .error (.raised "API connection failed")

/-- C2 (code evaluated at the failing input): with `max_rounds = 1`, a
tool-use round whose dispatch succeeds, and a transport fault raised by the
final tool-free synthesis call, `generate_response` does NOT propagate the
fault: it returns the tool-failure string, because the `try` block of lines
114-129 also encloses the `_make_final_response` call of line 123. -/
theorem claim2_final_transport_fault_swallowed :
    generate_response llmFinalBoom (some okMgr) true "q" 1 =
      .ok ("Tool execution failed: API connection failed. Unable to provide complete response.",
        [Event.call true [⟨"user", .text "q"⟩],
         Event.exec "search" [("query", "x")],
         Event.call false
           [⟨"user", .text "q"⟩,
            ⟨"assistant", .blocks [.toolUse "id1" "search" [("query", "x")]]⟩,
            ⟨"user", .results [⟨"tool_result", "id1", "res"⟩]⟩]]) := by
  unfold generate_response
  rw [genLoop_final llmFinalBoom okMgr true 0 [⟨"user", .text "q"⟩] none 1 1 []
    ⟨"tool_use", [.toolUse "id1" "search" [("query", "x")]]⟩
    [⟨"user", .text "q"⟩,
     ⟨"assistant", .blocks [.toolUse "id1" "search" [("query", "x")]]⟩,
     ⟨"user", .results [⟨"tool_result", "id1", "res"⟩]⟩]
    [⟨"tool_result", "id1", "res"⟩]
    [.exec "search" [("query", "x")]]
    (by omega) (by omega) rfl rfl rfl]
  unfold finalStep make_final_response llmFinalBoom
  simp [toolFailMsg, pyStr]

/-! ### C5 -/

/-- A model whose reply signals tool use with a tool-use block first and a
plain text block second. -/
def llmMixedContent : Nat → Except PyErr Response := fun _ =>
  .ok ⟨"tool_use", [.toolUse "id1" "search" [], .text "hello there"]⟩

/-- C5 as stated is false: with no tool manager, a tool-use reply whose
content CONTAINS plain text (a text block after the tool-use block) still
yields the fixed fallback string, not the plain-text content, because only
the FIRST content block is inspected. -/
theorem claim5_counterexample :
    Block.text "hello there" ∈
      ([.toolUse "id1" "search" [], .text "hello there"] : List Block) ∧
    generate_response llmMixedContent none true "q" 2 =
      .ok ("Tool requested but no tool manager available",
        [Event.call true [⟨"user", .text "q"⟩]]) ∧
    "Tool requested but no tool manager available" ≠ "hello there" := by
  refine ⟨by simp, ?_, by simp⟩
  unfold generate_response
  rw [genLoop_no_mgr llmMixedContent true 0 [⟨"user", .text "q"⟩] none 1 2 []
    ⟨"tool_use", [.toolUse "id1" "search" [], .text "hello there"]⟩
    (by omega) rfl rfl]
  rfl

/-- C5 amended: whenever the model's reply signals tool use but no tool
manager is configured, `generate_response` performs no tool dispatch (the
event log holds the single LLM call) and returns a string — the FIRST
content block's text when that block is a plain-text block, and otherwise
the fixed fallback string `"Tool requested but no tool manager available"`
(even when a later block carries plain text). -/
theorem claim5_no_manager_amended (llm : Nat → Except PyErr Response)
    (tp : Bool) (q : String) (R : Int) (resp : Response)
    (hR : 1 ≤ R) (h0 : llm 0 = .ok resp)
    (hs : resp.stop_reason = "tool_use") :
    generate_response llm none tp q R =
      .ok (noManagerResult resp.content, [Event.call tp [⟨"user", .text q⟩]]) ∧
    ((∃ t rest, resp.content = Block.text t :: rest ∧ noManagerResult resp.content = t) ∨
      ((¬ ∃ t rest, resp.content = Block.text t :: rest) ∧
        noManagerResult resp.content = "Tool requested but no tool manager available")) := by
  constructor
  · unfold generate_response
    rw [genLoop_no_mgr _ _ _ _ _ _ _ _ _ hR h0 hs]
    rfl
  · match hb : resp.content with
    | [] =>
      right
      refine ⟨?_, rfl⟩
      rintro ⟨t, rest, hteq, -⟩
    | .text t :: rest => exact Or.inl ⟨t, rest, rfl, rfl⟩
    | .toolUse i n inp :: rest =>
      right
      refine ⟨?_, rfl⟩
      rintro ⟨t, rest2, hteq, -⟩

/-- Witness for the amended C5 with a concrete tool-use reply. -/
theorem claim5_no_manager_amended_witness :
    generate_response llmMixedContent none false "q" 1 =
      .ok (noManagerResult [.toolUse "id1" "search" [], .text "hello there"],
        [Event.call false [⟨"user", .text "q"⟩]]) ∧
    ((∃ t rest, ([.toolUse "id1" "search" [], .text "hello there"] : List Block)
        = Block.text t :: rest ∧
      noManagerResult [.toolUse "id1" "search" [], .text "hello there"] = t) ∨
      ((¬ ∃ t rest, ([.toolUse "id1" "search" [], .text "hello there"] : List Block)
          = Block.text t :: rest) ∧
        noManagerResult [.toolUse "id1" "search" [], .text "hello there"]
          = "Tool requested but no tool manager available")) :=
  claim5_no_manager_amended llmMixedContent false "q" 1
    ⟨"tool_use", [.toolUse "id1" "search" [], .text "hello there"]⟩
    (by omega) rfl rfl

/-! ### C10 -/

/-- C10: a reply with `stop_reason` tool-use but zero tool-use content
blocks, with a tool manager configured, appends the assistant turn but no
tool-result user turn (the batched turn is only appended when at least one
result was collected), executes nothing, still consumes a round, and the run
proceeds without raising: to the next LLM call when budget remains
(`1 < R`), and to the final synthesis call when the budget is exhausted
(`R = 1`). -/
theorem claim10_empty_tool_use (mgr : ToolMgr) :
    (∀ (resp : Response) (msgs : List Message),
      invocations resp.content = [] →
      execute_tools_for_round mgr resp msgs =
        (.ok (msgs ++ [⟨"assistant", .blocks resp.content⟩], []), [])) ∧
    (∀ (llm : Nat → Except PyErr Response) (tp : Bool) (q : String) (R : Int)
      (resp : Response),
      llm 0 = .ok resp → resp.stop_reason = "tool_use" →
      invocations resp.content = [] →
      (1 < R → generate_response llm (some mgr) tp q R =
        genLoop llm (some mgr) tp 1
          ([⟨"user", .text q⟩] ++ [⟨"assistant", .blocks resp.content⟩])
          (some resp) 2 R [Event.call tp [⟨"user", .text q⟩]]) ∧
      (R = 1 → generate_response llm (some mgr) tp q R =
        finalStep llm 1
          [Event.call tp [⟨"user", .text q⟩],
           Event.call false
             ([⟨"user", .text q⟩] ++ [⟨"assistant", .blocks resp.content⟩])])) := by
  have hbase : ∀ (resp : Response) (msgs : List Message),
      invocations resp.content = [] →
      execute_tools_for_round mgr resp msgs =
        (.ok (msgs ++ [⟨"assistant", .blocks resp.content⟩], []), []) := by
    intro resp msgs hinv
    rw [etfr_of_collect mgr resp msgs [] [] (collect_no_invocations mgr resp.content hinv)]
    simp [postMsgs]
  refine ⟨hbase, ?_⟩
  intro llm tp q R resp h0 hs hinv
  constructor
  · intro hR
    unfold generate_response
    rw [genLoop_continue _ _ _ _ _ _ _ _ _ _ _ _ _ (by omega) hR h0 hs
      (hbase resp [⟨"user", .text q⟩] hinv)]
    norm_num
  · intro hR
    subst hR
    unfold generate_response
    rw [genLoop_final _ _ _ _ _ _ _ _ _ _ _ _ _ (by omega) (by omega) h0 hs
      (hbase resp [⟨"user", .text q⟩] hinv)]
    simp

/-- Witness for C10 with a concrete empty tool-use reply at `R = 1`. -/
theorem claim10_empty_tool_use_witness :
    execute_tools_for_round okMgr ⟨"tool_use", []⟩ [⟨"user", .text "q"⟩] =
      (.ok ([⟨"user", .text "q"⟩] ++ [⟨"assistant", .blocks []⟩], []), []) ∧
    generate_response (fun _ => .ok ⟨"tool_use", []⟩) (some okMgr) false "q" 1 =
      finalStep (fun _ => .ok ⟨"tool_use", []⟩) 1
        [Event.call false [⟨"user", .text "q"⟩],
         Event.call false ([⟨"user", .text "q"⟩] ++ [⟨"assistant", .blocks []⟩])] :=
  ⟨(claim10_empty_tool_use okMgr).1 ⟨"tool_use", []⟩ [⟨"user", .text "q"⟩] rfl,
   (((claim10_empty_tool_use okMgr).2 (fun _ => .ok ⟨"tool_use", []⟩) false "q" 1
      ⟨"tool_use", []⟩ rfl rfl rfl).2 rfl)⟩

end RagOrch

namespace RagOrch

/-! ### C3 -/

/-- C3: in every dispatch round, every tool invocation of the reply is
executed exactly once with its own name and arguments (the execution events
are one `exec` per invocation, in invocation order), the collected results
form one batched user-role turn containing one `tool_result` entry per
invocation in invocation order, each tagged with the id of the invocation it
answers, placed directly after the assistant turn holding the reply's raw
content — and at run level, when round 1 dispatches, no second LLM call
precedes that turn: the run's second call event already carries the
conversation ending in the batched tool-result turn. -/
theorem claim3_batched_dispatch :
    (∀ (mgr : ToolMgr) (resp : Response) (msgs : List Message),
      (∀ v ∈ invocations resp.content,
        (mgr.execute_tool v.toolName v.input).isOk = true) →
      execute_tools_for_round mgr resp msgs =
        (.ok (msgs ++ ⟨"assistant", .blocks resp.content⟩ ::
            (if invocations resp.content = [] then []
             else [⟨"user", .results (expectedResults mgr resp.content)⟩]),
          expectedResults mgr resp.content),
         execEvents resp.content)) ∧
    (∀ (llm : Nat → Except PyErr Response) (mgr : ToolMgr) (tp : Bool)
      (q : String) (R : Int) (resp : Response) (s : String) (tr : List Event),
      1 ≤ R → llm 0 = .ok resp → resp.stop_reason = "tool_use" →
      (∀ v ∈ invocations resp.content,
        (mgr.execute_tool v.toolName v.input).isOk = true) →
      generate_response llm (some mgr) tp q R = .ok (s, tr) →
      ∃ b rest, tr = Event.call tp [⟨"user", .text q⟩] :: (execEvents resp.content ++
        Event.call b (postMsgs [⟨"user", .text q⟩] resp
          (expectedResults mgr resp.content)) :: rest)) := by
  have hpart1 : ∀ (mgr : ToolMgr) (resp : Response) (msgs : List Message),
      (∀ v ∈ invocations resp.content,
        (mgr.execute_tool v.toolName v.input).isOk = true) →
      execute_tools_for_round mgr resp msgs =
        (.ok (msgs ++ ⟨"assistant", .blocks resp.content⟩ ::
            (if invocations resp.content = [] then []
             else [⟨"user", .results (expectedResults mgr resp.content)⟩]),
          expectedResults mgr resp.content),
         execEvents resp.content) := by
    intro mgr resp msgs h
    rw [etfr_of_collect mgr resp msgs _ _ (collect_all_ok mgr resp.content h)]
    unfold postMsgs expectedResults
    cases hinv : invocations resp.content with
    | nil => simp [hinv]
    | cons v vs => simp [hinv]
  refine ⟨hpart1, ?_⟩
  intro llm mgr tp q R resp s tr hR h0 hs hok hrun
  have hd := hpart1 mgr resp [⟨"user", .text q⟩] hok
  have hd' : execute_tools_for_round mgr resp [⟨"user", .text q⟩] =
      (.ok (postMsgs [⟨"user", .text q⟩] resp (expectedResults mgr resp.content),
        expectedResults mgr resp.content), execEvents resp.content) := by
    rw [hd]
    unfold postMsgs expectedResults
    cases hinv : invocations resp.content with
    | nil => simp [hinv]
    | cons v vs => simp [hinv]
  by_cases hRgt : 1 < R
  · unfold generate_response at hrun
    rw [genLoop_continue _ _ _ _ _ _ _ _ _ _ _ _ _ (by omega) hRgt h0 hs hd'] at hrun
    obtain ⟨ext, hext⟩ := genLoop_first_call llm (some mgr) tp (0 + 1)
      (postMsgs [⟨"user", .text q⟩] resp (expectedResults mgr resp.content))
      (some resp) (1 + 1) R (([] ++ [.call tp [⟨"user", .text q⟩]]) ++ execEvents resp.content)
      s tr (by omega) hrun
    refine ⟨tp, ext, ?_⟩
    rw [hext]
    simp
  · have hR1 : R = 1 := by omega
    subst hR1
    unfold generate_response at hrun
    rw [genLoop_final _ _ _ _ _ _ _ _ _ _ _ _ _ (by omega) (by omega) h0 hs hd'] at hrun
    unfold finalStep at hrun
    cases hmf : make_final_response llm (0 + 1) with
    | error e =>
      rw [hmf] at hrun
      simp at hrun
      refine ⟨false, [], ?_⟩
      rw [← hrun.2]
    | ok t =>
      rw [hmf] at hrun
      simp at hrun
      refine ⟨false, [], ?_⟩
      rw [← hrun.2]

/-- Witness for C3 with one concrete invocation at `R = 1`. -/
theorem claim3_batched_dispatch_witness :
    execute_tools_for_round okMgr
        ⟨"tool_use", [.toolUse "id1" "search" [("query", "x")]]⟩
        [⟨"user", .text "q"⟩] =
      (.ok ([⟨"user", .text "q"⟩] ++
          ⟨"assistant", .blocks [.toolUse "id1" "search" [("query", "x")]]⟩ ::
          (if invocations [.toolUse "id1" "search" [("query", "x")]] = [] then []
           else [⟨"user", .results (expectedResults okMgr
             [.toolUse "id1" "search" [("query", "x")]])⟩]),
        expectedResults okMgr [.toolUse "id1" "search" [("query", "x")]]),
       execEvents [.toolUse "id1" "search" [("query", "x")]]) ∧
    ∃ b rest,
      [Event.call true [⟨"user", .text "q"⟩],
       Event.exec "search" [("query", "x")],
       Event.call false
         [⟨"user", .text "q"⟩,
          ⟨"assistant", .blocks [.toolUse "id1" "search" [("query", "x")]]⟩,
          ⟨"user", .results [⟨"tool_result", "id1", "res"⟩]⟩]] =
      Event.call true [⟨"user", .text "q"⟩] ::
        (execEvents [.toolUse "id1" "search" [("query", "x")]] ++
          Event.call b (postMsgs [⟨"user", .text "q"⟩]
            ⟨"tool_use", [.toolUse "id1" "search" [("query", "x")]]⟩
            (expectedResults okMgr [.toolUse "id1" "search" [("query", "x")]])) :: rest) :=
  ⟨claim3_batched_dispatch.1 okMgr
      ⟨"tool_use", [.toolUse "id1" "search" [("query", "x")]]⟩
      [⟨"user", .text "q"⟩]
      (by intro v hv; simp [invocations] at hv; subst hv; rfl),
   claim3_batched_dispatch.2 llmToolThenText okMgr true "q" 1
      ⟨"tool_use", [.toolUse "id1" "search" [("query", "x")]]⟩
      "done"
      [Event.call true [⟨"user", .text "q"⟩],
       Event.exec "search" [("query", "x")],
       Event.call false
         [⟨"user", .text "q"⟩,
          ⟨"assistant", .blocks [.toolUse "id1" "search" [("query", "x")]]⟩,
          ⟨"user", .results [⟨"tool_result", "id1", "res"⟩]⟩]]
      (by omega) rfl rfl
      (by intro v hv; simp [invocations] at hv; subst hv; rfl)
      (by
        unfold generate_response
        rw [genLoop_final llmToolThenText okMgr true 0 [⟨"user", .text "q"⟩] none 1 1 []
          ⟨"tool_use", [.toolUse "id1" "search" [("query", "x")]]⟩
          [⟨"user", .text "q"⟩,
           ⟨"assistant", .blocks [.toolUse "id1" "search" [("query", "x")]]⟩,
           ⟨"user", .results [⟨"tool_result", "id1", "res"⟩]⟩]
          [⟨"tool_result", "id1", "res"⟩]
          [.exec "search" [("query", "x")]]
          (by omega) (by omega) rfl rfl rfl]
        rfl)⟩

end RagOrch

namespace RagSearch

/-!
The implementation files of the retrieval-tool layer (`search_tools.py` and
`vector_store.py`) are not among the staged sources — only their tests are.
Each definition below is therefore modelled from the specification text, as
its doc comment states.
-/

/-- Modelled from the spec: the metadata mapping of one search hit — it
carries at least `course_title` and, when applicable, `lesson_number`
(either may be absent from a hit's metadata). -/
structure ChunkMeta where
  course_title : Option String
  lesson_number : Option Int
deriving DecidableEq, Repr

/-- Modelled from the spec: the `SearchResults` set of `vector_store.py` —
an ordered list of (document text, metadata, relevance distance) triples, or
an explicit error string, or empty; three disjoint states.  The distance
values are never inspected by the search tool. -/
structure SearchResults where
  documents : List String
  metadata : List ChunkMeta
  distances : List Int
  error : Option String
deriving DecidableEq, Repr

/-- Modelled from the spec: the retrieval-store operations the content
search tool depends on — the filtered query and the per-lesson link
lookup. -/
structure VectorStore where
  search : String → Option String → Option Int → SearchResults
  get_lesson_link : String → Int → Option String

/-- Modelled from the spec: a citation Source — a (display text, optional
link) pair recorded as a side effect of a content-search execution. -/
structure Source where
  text : String
  link : Option String
deriving DecidableEq, Repr

/-- Modelled from the spec: the empty-state message — it names whichever of
the optional filters were supplied, omitting the clause for an absent
filter, and ends with a period. -/
def emptyMessage (course_name : Option String) (lesson_number : Option Int) :
    String :=
  "No relevant content found" ++
    (match course_name with
     | some c => " in course '" ++ c ++ "'"
     | none => "") ++
    (match lesson_number with
     | some n => " in lesson " ++ toString n
     | none => "") ++ "."

/-- Modelled from the spec: the course/lesson phrase of a result header —
the course title (literal placeholder `"unknown"` when the title is
missing), then `" - Lesson <n>"` only when that result carries a lesson
number. -/
def headerText (m : ChunkMeta) : String :=
  m.course_title.getD "unknown" ++
    (match m.lesson_number with
     | some n => " - Lesson " ++ toString n
     | none => "")

/-- Modelled from the spec: one rendered result — the bracketed header
followed by the document text. -/
def renderResult (m : ChunkMeta) (doc : String) : String :=
  "[" ++ headerText m ++ "]" ++ "\n" ++ doc

/-- Modelled from the spec: the Source entry of one result — display text
equal to the header phrase without brackets, the link resolved through the
store's per-lesson lookup, performed only when the result carries a lesson
number. -/
def sourceOf (store : VectorStore) (m : ChunkMeta) : Source :=
  { text := headerText m
    link := match m.lesson_number with
      | some n => store.get_lesson_link (m.course_title.getD "unknown") n
      | none => none }

/-- Modelled from the spec: the non-empty branch — successive renderings
separated by a blank line, and the Source list populated in the same order,
one entry per result. -/
def formatResults (store : VectorStore) (docs : List String)
    (metas : List ChunkMeta) : String × List Source :=
  (String.intercalate "\n\n" ((docs.zip metas).map fun p => renderResult p.2 p.1),
   (docs.zip metas).map fun p => sourceOf store p.2)

/-- Modelled from the spec: `CourseSearchTool.execute` of `search_tools.py`.
The Source list is cleared at the start of each execution; the store is
queried with the given filters; an explicit store error is returned verbatim
as the result string; an empty result yields the filter-aware message;
otherwise the rendered results, with one source recorded per result.
Returns the result string together with the tool's new source list. -/
def executeSearch (store : VectorStore) (query : String)
    (course_name : Option String) (lesson_number : Option Int) :
    String × List Source :=
  let results := store.search query course_name lesson_number
  match results.error with
  | some e => (e, [])
  | none =>
    if results.documents.isEmpty then
      (emptyMessage course_name lesson_number, [])
    else
      formatResults store results.documents results.metadata

/-- Modelled from the spec: the content-search tool's state — the source
list of the most recent execution, readable until the next execution or an
explicit reset. -/
structure CourseSearchTool where
  last_sources : List Source
deriving DecidableEq, Repr

/-- Modelled from the spec: one stateful execution of the content-search
tool — the Source list is replaced (not appended to) on every call. -/
def CourseSearchTool.execute (_tool : CourseSearchTool) (store : VectorStore)
    (query : String) (course_name : Option String)
    (lesson_number : Option Int) : String × CourseSearchTool :=
  let r := executeSearch store query course_name lesson_number
  (r.1, { last_sources := r.2 })

/-- Modelled from the spec: a tool definition — name (may be absent, in
which case registration is rejected) and human description. -/
structure ToolDefinition where
  toolName : Option String
  descr : String
deriving DecidableEq, Repr

/-- Modelled from the spec: a registrable tool — a machine-readable
definition plus an execution operation returning a string. -/
structure SpecTool where
  definition : ToolDefinition
  run : List (String × String) → String

/-- Modelled from the spec: the `ConfigurationError` raised by
registration. -/
inductive ConfigurationError where
  | missingName
  | duplicateName (n : String)
deriving DecidableEq, Repr

/-- The names already registered, in insertion order. -/
def registryNames (reg : List SpecTool) : List String :=
  reg.filterMap fun t => t.definition.toolName

/-- Modelled from the spec: `register(tool)` — fails with a
`ConfigurationError` if the tool's definition lacks a name, or if a tool
with that name is already registered (collisions rejected, not silently
overwritten); otherwise the tool is appended to the registry. -/
def register (reg : List SpecTool) (t : SpecTool) :
    Except ConfigurationError (List SpecTool) :=
  match t.definition.toolName with
  | none => .error .missingName
  | some n =>
    if n ∈ registryNames reg then .error (.duplicateName n)
    else .ok (reg ++ [t])

/-- Modelled from the spec: `definitions()` — the registered tools'
definitions in insertion order. -/
def definitions (reg : List SpecTool) : List ToolDefinition :=
  reg.map fun t => t.definition

end RagSearch

namespace RagSearch

/-! ### C6, C7 and C8 -/

/-- C6: for every content-search execution whose store query returns the
Empty state (no explicit error, zero documents), the returned string is
exactly the filter-aware template determined by which optional filters were
supplied: no filters, course only, lesson only, or both. -/
theorem claim6_empty_templates (store : VectorStore) (q c : String) (n : Int) :
    ((store.search q none none).error = none →
      (store.search q none none).documents = [] →
      (executeSearch store q none none).1 = "No relevant content found.") ∧
    ((store.search q (some c) none).error = none →
      (store.search q (some c) none).documents = [] →
      (executeSearch store q (some c) none).1 =
        "No relevant content found in course '" ++ c ++ "'.") ∧
    ((store.search q none (some n)).error = none →
      (store.search q none (some n)).documents = [] →
      (executeSearch store q none (some n)).1 =
        "No relevant content found in lesson " ++ toString n ++ ".") ∧
    ((store.search q (some c) (some n)).error = none →
      (store.search q (some c) (some n)).documents = [] →
      (executeSearch store q (some c) (some n)).1 =
        "No relevant content found in course '" ++ c ++ "' in lesson "
          ++ toString n ++ ".") := by
  refine ⟨?_, ?_, ?_, ?_⟩
  · intro he hd
    simp [executeSearch, he, hd, emptyMessage]
  · intro he hd
    simp [executeSearch, he, hd]
    apply String.ext
    simp [emptyMessage, String.data_append]
  · intro he hd
    simp [executeSearch, he, hd]
    apply String.ext
    simp [emptyMessage, String.data_append]
  · intro he hd
    simp [executeSearch, he, hd]
    apply String.ext
    simp [emptyMessage, String.data_append]

/-- A store whose every query is empty (no error). -/
def emptyStore : VectorStore :=
  ⟨fun _ _ _ => ⟨[], [], [], none⟩, fun _ _ => none⟩

/-- Witness for C6 on a concrete empty store with course filter `"Python"`
and lesson filter `5`. -/
theorem claim6_empty_templates_witness :
    (executeSearch emptyStore "q" none none).1 = "No relevant content found." ∧
    (executeSearch emptyStore "q" (some "Python") none).1 =
      "No relevant content found in course '" ++ "Python" ++ "'." ∧
    (executeSearch emptyStore "q" none (some 5)).1 =
      "No relevant content found in lesson " ++ toString (5 : Int) ++ "." ∧
    (executeSearch emptyStore "q" (some "Python") (some 5)).1 =
      "No relevant content found in course '" ++ "Python" ++ "' in lesson "
        ++ toString (5 : Int) ++ "." :=
  ⟨(claim6_empty_templates emptyStore "q" "Python" 5).1 rfl rfl,
   (claim6_empty_templates emptyStore "q" "Python" 5).2.1 rfl rfl,
   (claim6_empty_templates emptyStore "q" "Python" 5).2.2.1 rfl rfl,
   (claim6_empty_templates emptyStore "q" "Python" 5).2.2.2 rfl rfl⟩

/-- C7: for every pair of consecutive executions on the same tool, the
source list readable after the second has length exactly `k2` — the length
the second search alone yields (last-write-wins replacement, never
`k1 + k2`) — and in particular repeating an empty search leaves the source
list at length `0`. -/
theorem claim7_sources_replaced (store : VectorStore) (tool : CourseSearchTool)
    (q1 q2 : String) (cn1 cn2 : Option String) (ln1 ln2 : Option Int)
    (k1 k2 : Nat)
    (_h1 : (executeSearch store q1 cn1 ln1).2.length = k1)
    (h2 : (executeSearch store q2 cn2 ln2).2.length = k2) :
    ((tool.execute store q1 cn1 ln1).2.execute store q2 cn2 ln2).2.last_sources.length
      = k2 ∧
    (∀ (q : String) (cn : Option String) (ln : Option Int) (t : CourseSearchTool),
      (store.search q cn ln).error = none → (store.search q cn ln).documents = [] →
      ((t.execute store q cn ln).2.execute store q cn ln).2.last_sources.length = 0) := by
  constructor
  · simpa [CourseSearchTool.execute] using h2
  · intro q cn ln t he hd
    simp [CourseSearchTool.execute, executeSearch, he, hd]

/-- A store returning two hits for the query `"first"`, one hit for
`"second"` and the empty state otherwise. -/
def twoThenOneStore : VectorStore :=
  ⟨fun q _ _ =>
    if q = "first" then
      ⟨["d1", "d2"],
       [⟨some "Python Fundamentals", some 1⟩, ⟨some "Python Fundamentals", some 2⟩],
       [0, 0], none⟩
    else if q = "second" then
      ⟨["Single result"], [⟨some "Python", some 1⟩], [0], none⟩
    else ⟨[], [], [], none⟩,
   fun _ _ => some "http://example.com/lesson1"⟩

/-- Witness for C7: two hits then one hit leaves one source, and repeating
an empty search leaves zero. -/
theorem claim7_sources_replaced_witness :
    ((((CourseSearchTool.mk []).execute twoThenOneStore "first" none none).2.execute
        twoThenOneStore "second" none none).2.last_sources.length = 1) ∧
    (∀ (q : String) (cn : Option String) (ln : Option Int) (t : CourseSearchTool),
      (twoThenOneStore.search q cn ln).error = none →
      (twoThenOneStore.search q cn ln).documents = [] →
      ((t.execute twoThenOneStore q cn ln).2.execute
        twoThenOneStore q cn ln).2.last_sources.length = 0) :=
  claim7_sources_replaced twoThenOneStore (CourseSearchTool.mk [])
    "first" "second" none none none none 2 1 rfl rfl

/-- C8: registration fails with a `ConfigurationError` when the definition
lacks a name, fails when the name is already registered (the existing
registration is not silently overwritten), and otherwise succeeds by
appending, so that `definitions()` lists tools in insertion order. -/
theorem claim8_registration (reg : List SpecTool) (t : SpecTool) :
    (t.definition.toolName = none → register reg t = .error .missingName) ∧
    (∀ n, t.definition.toolName = some n → n ∈ registryNames reg →
      register reg t = .error (.duplicateName n)) ∧
    (∀ n, t.definition.toolName = some n → n ∉ registryNames reg →
      register reg t = .ok (reg ++ [t]) ∧
      definitions (reg ++ [t]) = definitions reg ++ [t.definition]) := by
  refine ⟨?_, ?_, ?_⟩
  · intro h
    simp [register, h]
  · intro n hn hmem
    simp [register, hn, hmem]
  · intro n hn hmem
    exact ⟨by simp [register, hn, hmem], by simp [definitions]⟩

/-- A registrable tool named `"mock_tool"`. -/
def mockTool : SpecTool :=
  ⟨⟨some "mock_tool", "A mock tool"⟩, fun _ => "mock result"⟩

/-- A tool whose definition lacks a name. -/
def namelessTool : SpecTool :=
  ⟨⟨none, "bad tool"⟩, fun _ => ""⟩

/-- Witness for C8: the nameless tool is rejected, re-registering
`"mock_tool"` is rejected, and a fresh registration appends. -/
theorem claim8_registration_witness :
    register [] namelessTool = .error .missingName ∧
    register [mockTool] mockTool = .error (.duplicateName "mock_tool") ∧
    (register [] mockTool = .ok ([] ++ [mockTool]) ∧
      definitions ([] ++ [mockTool]) = definitions [] ++ [mockTool.definition]) :=
  ⟨(claim8_registration [] namelessTool).1 rfl,
   (claim8_registration [mockTool] mockTool).2.1 "mock_tool" rfl
     (by simp [registryNames, mockTool]),
   (claim8_registration [] mockTool).2.2 "mock_tool" rfl
     (by simp [registryNames])⟩

end RagSearch
